import Mathlib

/-!
Verification of the ADS1263 ADC driver (Rust, `src/rust/src/`).

Shallow embedding conventions:
* Machine integers (`u8`, `u32`) are `Nat` with explicit `% 2 ^ w` at the
  points where the Rust code masks or wraps, and `< 2 ^ w` hypotheses where
  a claim quantifies over a machine-width domain.
* `f64` arithmetic in the voltage-conversion helpers is modelled as exact
  rational arithmetic (`ℚ`); the claims under scrutiny are about the algebraic
  form of the conversion, not about rounding.
* The hardware abstraction layer (`hal.rs`) is modelled as a state record that
  logs every externally visible action (pin changes, SPI bytes, delays, log
  emissions) and serves SPI read bytes from an environment-chosen stream
  `reads`.  Transport (SPI/GPIO) failures are out of scope: every claim about
  driver behaviour is conditioned on the transport succeeding, which matches
  the claims' wording, so the modelled HAL primitives are infallible and the
  driver-level `Result` only carries the driver's own error cases.
* The unbounded `loop { ... }` in the data-read paths is modelled with an
  explicit fuel parameter; `none` means the status bit was never seen within
  the given fuel.
-/

/-! ## Checksum (`ads1263.rs`, `fn checksum`) -/

/-- Loop body of `Ads1263::checksum`: `while v != 0 { sum = sum.wrapping_add((v & 0xFF) as u8); v >>= 8; }`. -/
def checksumLoop (sum v : Nat) : Nat :=
  if h : v = 0 then sum
  else checksumLoop ((sum + v % 256) % 256) (v / 256)
termination_by v
decreasing_by exact Nat.div_lt_self (Nat.pos_of_ne_zero h) (by omega)

/-- Embedding of `Ads1263::checksum(val, crc)`: sum the base-256 digits of
`val` with 8-bit wraparound, add the constant `0x9B`, compare with `crc`. -/
def checksum (val crc : Nat) : Bool :=
  decide ((checksumLoop 0 val + 0x9B) % 256 = crc)

/-- Modelled from the spec: the plain (unwrapped) sum of all base-256 digits,
used to relate the running-wraparound loop to the spec's byte-sum description. -/
def byteSum (v : Nat) : Nat :=
  if h : v = 0 then 0
  else v % 256 + byteSum (v / 256)
termination_by v
decreasing_by exact Nat.div_lt_self (Nat.pos_of_ne_zero h) (by omega)

/-- Wrapped byte-sum-plus-constant: the value `checksum` compares with `crc`. -/
def wrappedSum (v : Nat) : Nat :=
  (byteSum v + 0x9B) % 256

/-! ## Voltage conversion (`ads1263.rs`, `raw_to_voltage_adc1/2`) -/

/-- Embedding of `Ads1263::raw_to_voltage_adc1` (f64 as exact ℚ). -/
def raw_to_voltage_adc1 (raw : Nat) (reference : ℚ) : ℚ :=
  if raw >>> 31 = 1 then
    -(reference * 2 - ((raw : ℚ) / 2147483648) * reference)
  else
    ((raw : ℚ) / 2147483647) * reference

/-- Embedding of `Ads1263::raw_to_voltage_adc2` (f64 as exact ℚ). -/
def raw_to_voltage_adc2 (raw : Nat) (reference : ℚ) : ℚ :=
  if raw >>> 23 = 1 then
    -(reference * 2 - ((raw : ℚ) / 8388608) * reference)
  else
    ((raw : ℚ) / 8388607) * reference

/-- Modelled from the spec's words for C1: the asymmetric mapping keyed on
bit `b = 31`, with full-scale `F = 2^31 - 1` and half-scale `H = 2^31`. -/
def specVoltageAdc1 (raw : Nat) (vref : ℚ) : ℚ :=
  if raw.testBit 31 then -(2 * vref - ((raw : ℚ) / 2 ^ 31) * vref)
  else ((raw : ℚ) / (2 ^ 31 - 1)) * vref

/-- Modelled from the spec's words for C1: the asymmetric mapping keyed on
bit `b = 23`, with full-scale `F = 2^23 - 1` and half-scale `H = 2^23`. -/
def specVoltageAdc2 (raw : Nat) (vref : ℚ) : ℚ :=
  if raw.testBit 23 then -(2 * vref - ((raw : ℚ) / 2 ^ 23) * vref)
  else ((raw : ℚ) / (2 ^ 23 - 1)) * vref

/-! ## Register, command and configuration enums (`registers.rs`) -/

/-- Embedding of the `Register` enum (register addresses). -/
inductive Register
  | Id | Power | Interface | Mode0 | Mode1 | Mode2 | InpMux
  | OfCal0 | OfCal1 | OfCal2 | FsCal0 | FsCal1 | FsCal2
  | IdacMux | IdacMag | RefMux | TdacP | TdacN
  | GpioCon | GpioDir | GpioDat
  | Adc2Cfg | Adc2Mux | Adc2Ofc0 | Adc2Ofc1 | Adc2Fsc0 | Adc2Fsc1
deriving DecidableEq

/-- Discriminant of `Register` (the `as u8` cast). -/
def Register.toByte : Register → Nat
  | .Id => 0x00 | .Power => 0x01 | .Interface => 0x02
  | .Mode0 => 0x03 | .Mode1 => 0x04 | .Mode2 => 0x05 | .InpMux => 0x06
  | .OfCal0 => 0x07 | .OfCal1 => 0x08 | .OfCal2 => 0x09
  | .FsCal0 => 0x0A | .FsCal1 => 0x0B | .FsCal2 => 0x0C
  | .IdacMux => 0x0D | .IdacMag => 0x0E | .RefMux => 0x0F
  | .TdacP => 0x10 | .TdacN => 0x11
  | .GpioCon => 0x12 | .GpioDir => 0x13 | .GpioDat => 0x14
  | .Adc2Cfg => 0x15 | .Adc2Mux => 0x16
  | .Adc2Ofc0 => 0x17 | .Adc2Ofc1 => 0x18 | .Adc2Fsc0 => 0x19 | .Adc2Fsc1 => 0x1A

/-- Embedding of the `Command` enum (command codes). -/
inductive Command
  | Reset | Start1 | Stop1 | Start2 | Stop2 | RData1 | RData2
  | SysOCal1 | SysGCal1 | SelfOCal1 | SysOCal2 | SysGCal2 | SelfOCal2
  | RReg | WReg
deriving DecidableEq

/-- Discriminant of `Command` (the `as u8` cast). -/
def Command.toByte : Command → Nat
  | .Reset => 0x06 | .Start1 => 0x08 | .Stop1 => 0x0A
  | .Start2 => 0x0C | .Stop2 => 0x0E | .RData1 => 0x12 | .RData2 => 0x14
  | .SysOCal1 => 0x16 | .SysGCal1 => 0x17 | .SelfOCal1 => 0x19
  | .SysOCal2 => 0x1B | .SysGCal2 => 0x1C | .SelfOCal2 => 0x1E
  | .RReg => 0x20 | .WReg => 0x40

/-- Embedding of the ADC1 `Gain` enum. -/
inductive Gain
  | Gain1 | Gain2 | Gain4 | Gain8 | Gain16 | Gain32 | Gain64
deriving DecidableEq

/-- Discriminant of `Gain`. -/
def Gain.toByte : Gain → Nat
  | .Gain1 => 0 | .Gain2 => 1 | .Gain4 => 2 | .Gain8 => 3
  | .Gain16 => 4 | .Gain32 => 5 | .Gain64 => 6

/-- Embedding of the ADC1 `DataRate` enum. -/
inductive DataRate
  | Sps2_5 | Sps5 | Sps10 | Sps16_6 | Sps20 | Sps50 | Sps60 | Sps100
  | Sps400 | Sps1200 | Sps2400 | Sps4800 | Sps7200 | Sps14400 | Sps19200
  | Sps38400
deriving DecidableEq

/-- Discriminant of `DataRate`. -/
def DataRate.toByte : DataRate → Nat
  | .Sps2_5 => 0 | .Sps5 => 1 | .Sps10 => 2 | .Sps16_6 => 3
  | .Sps20 => 4 | .Sps50 => 5 | .Sps60 => 6 | .Sps100 => 7
  | .Sps400 => 8 | .Sps1200 => 9 | .Sps2400 => 10 | .Sps4800 => 11
  | .Sps7200 => 12 | .Sps14400 => 13 | .Sps19200 => 14 | .Sps38400 => 15

/-- Embedding of the `Delay` enum (conversion delay). -/
inductive Delay
  | Delay0 | Delay8_7us | Delay17us | Delay35us | Delay169us | Delay139us
  | Delay278us | Delay555us | Delay1_1ms | Delay2_2ms | Delay4_4ms | Delay8_8ms
deriving DecidableEq

/-- Discriminant of `Delay`. -/
def Delay.toByte : Delay → Nat
  | .Delay0 => 0 | .Delay8_7us => 1 | .Delay17us => 2 | .Delay35us => 3
  | .Delay169us => 4 | .Delay139us => 5 | .Delay278us => 6 | .Delay555us => 7
  | .Delay1_1ms => 8 | .Delay2_2ms => 9 | .Delay4_4ms => 10 | .Delay8_8ms => 11

/-- Embedding of the `Adc2Gain` enum. -/
inductive Adc2Gain
  | Gain1 | Gain2 | Gain4 | Gain8 | Gain16 | Gain32 | Gain64 | Gain128
deriving DecidableEq

/-- Discriminant of `Adc2Gain`. -/
def Adc2Gain.toByte : Adc2Gain → Nat
  | .Gain1 => 0 | .Gain2 => 1 | .Gain4 => 2 | .Gain8 => 3
  | .Gain16 => 4 | .Gain32 => 5 | .Gain64 => 6 | .Gain128 => 7

/-- Embedding of the `Adc2DataRate` enum. -/
inductive Adc2DataRate
  | Sps10 | Sps100 | Sps400 | Sps800
deriving DecidableEq

/-- Discriminant of `Adc2DataRate`. -/
def Adc2DataRate.toByte : Adc2DataRate → Nat
  | .Sps10 => 0 | .Sps100 => 1 | .Sps400 => 2 | .Sps800 => 3

/-- Embedding of the `DigitalFilter` enum. -/
inductive DigitalFilter
  | Sinc1 | Sinc2 | Sinc3 | Sinc4 | Fir
deriving DecidableEq

/-- Discriminant of `DigitalFilter`. -/
def DigitalFilter.toByte : DigitalFilter → Nat
  | .Sinc1 => 0x04 | .Sinc2 => 0x24 | .Sinc3 => 0x44 | .Sinc4 => 0x64
  | .Fir => 0x84

/-- Embedding of the `ReferenceSource` enum. -/
inductive ReferenceSource
  | Internal2_5V | ExternalAin01 | ExternalAin23 | ExternalAin45 | AvddAvss
deriving DecidableEq

/-- Discriminant of `ReferenceSource`. -/
def ReferenceSource.toByte : ReferenceSource → Nat
  | .Internal2_5V => 0x00 | .ExternalAin01 => 0x09 | .ExternalAin23 => 0x12
  | .ExternalAin45 => 0x1B | .AvddAvss => 0x24

/-- Embedding of the `InputMode` enum. -/
inductive InputMode
  | SingleEnded | Differential
deriving DecidableEq

/-- Embedding of `Ads1263Error` (`error.rs`).  The SPI/GPIO transport
variants are omitted: the modelled transport always succeeds. -/
inductive Ads1263Error
  | InitFailed
  | InvalidChipId (id : Nat)
  | InvalidChannel (ch mx : Nat)
  | Timeout
  | ChecksumError
  | RegisterVerifyFailed (register : String)
deriving DecidableEq

/-! ## HAL state machine (`hal.rs`), with an event log -/

/-- Externally visible actions of the HAL, in program order. -/
inductive Event
  | csSet (high : Bool)
  | rstSet (high : Bool)
  | delayMs (ms : Nat)
  | spiWrite (b : Nat)
  | spiRead (b : Nat)
  | waitDrdy
  | logInfo (msg : String)
  | logWarn (msg : String)
  | logError (msg : String)
deriving DecidableEq

/-- HAL state: the environment's SPI response stream `reads`, the number of
SPI reads performed so far, and the log of actions. -/
structure Hal where
  reads : Nat → Nat
  nread : Nat
  events : List Event

/-- Append an event to the log. -/
def Hal.emit (h : Hal) (e : Event) : Hal :=
  { h with events := h.events ++ [e] }

/-- Embedding of `Hal::set_rst`. -/
def Hal.set_rst (h : Hal) (high : Bool) : Hal :=
  h.emit (.rstSet high)

/-- Embedding of `Hal::set_cs`. -/
def Hal.set_cs (h : Hal) (high : Bool) : Hal :=
  h.emit (.csSet high)

/-- Embedding of `Hal::delay_ms`. -/
def Hal.delay_ms (h : Hal) (ms : Nat) : Hal :=
  h.emit (.delayMs ms)

/-- Embedding of `Hal::spi_write_byte` (a `u8` goes on the wire). -/
def Hal.spi_write_byte (h : Hal) (b : Nat) : Hal :=
  h.emit (.spiWrite (b % 256))

/-- Embedding of `Hal::spi_read_byte`: the next byte of the response
stream (a `u8`). -/
def Hal.spi_read_byte (h : Hal) : Nat × Hal :=
  let b := h.reads h.nread % 256
  (b, { h with nread := h.nread + 1, events := h.events ++ [.spiRead b] })

/-- Embedding of `Hal::wait_drdy`'s success path (data became ready). -/
def Hal.wait_drdy (h : Hal) : Hal :=
  h.emit .waitDrdy

/-! ## Driver state machine (`ads1263.rs`) -/

/-- Embedding of the `Ads1263` driver struct. -/
structure Ads1263 where
  hal : Hal
  scan_mode : InputMode

/-- Embedding of `Ads1263::new`. -/
def Ads1263.new (hal : Hal) : Ads1263 :=
  { hal := hal, scan_mode := .SingleEnded }

/-- Embedding of `Ads1263::reset` (hardware reset cycle on the RST pin). -/
def Ads1263.reset (a : Ads1263) : Ads1263 :=
  let h := a.hal.set_rst true
  let h := h.delay_ms 300
  let h := h.set_rst false
  let h := h.delay_ms 300
  let h := h.set_rst true
  let h := h.delay_ms 300
  { a with hal := h }

/-- Embedding of `Ads1263::write_cmd`. -/
def Ads1263.write_cmd (a : Ads1263) (cmd : Command) :
    Except Ads1263Error Unit × Ads1263 :=
  let h := a.hal.set_cs false
  let h := h.spi_write_byte cmd.toByte
  let h := h.set_cs true
  (.ok (), { a with hal := h })

/-- Embedding of `Ads1263::write_reg`. -/
def Ads1263.write_reg (a : Ads1263) (reg : Register) (data : Nat) :
    Except Ads1263Error Unit × Ads1263 :=
  let h := a.hal.set_cs false
  let h := h.spi_write_byte (Command.WReg.toByte ||| reg.toByte)
  let h := h.spi_write_byte 0x00
  let h := h.spi_write_byte data
  let h := h.set_cs true
  (.ok (), { a with hal := h })

/-- Embedding of `Ads1263::read_reg`. -/
def Ads1263.read_reg (a : Ads1263) (reg : Register) :
    Except Ads1263Error Nat × Ads1263 :=
  let h := a.hal.set_cs false
  let h := h.spi_write_byte (Command.RReg.toByte ||| reg.toByte)
  let h := h.spi_write_byte 0x00
  let (data, h) := h.spi_read_byte
  let h := h.set_cs true
  (.ok data, { a with hal := h })

/-- Embedding of `Ads1263::write_reg_verify`: write, delay, read back,
compare; a mismatch only logs a warning and still returns `Ok`. -/
def Ads1263.write_reg_verify (a : Ads1263) (reg : Register) (data : Nat)
    (name : String) : Except Ads1263Error Unit × Ads1263 :=
  match a.write_reg reg data with
  | (.error e, a) => (.error e, a)
  | (.ok _, a) =>
    let a : Ads1263 := { a with hal := a.hal.delay_ms 1 }
    match a.read_reg reg with
    | (.error e, a) => (.error e, a)
    | (.ok read_back, a) =>
      if read_back = data then
        (.ok (), { a with hal := a.hal.emit (.logInfo name) })
      else
        (.ok (), { a with hal := a.hal.emit (.logWarn name) })

/-- Embedding of `Ads1263::read_chip_id` (identity register, top 3 bits). -/
def Ads1263.read_chip_id (a : Ads1263) : Except Ads1263Error Nat × Ads1263 :=
  match a.read_reg .Id with
  | (.error e, a) => (.error e, a)
  | (.ok id, a) => (.ok (id >>> 5), a)

/-- Embedding of `Ads1263::set_mode`. -/
def Ads1263.set_mode (a : Ads1263) (mode : InputMode) : Ads1263 :=
  { a with scan_mode := mode, hal := a.hal.emit (.logInfo "Input mode set") }

/-- Embedding of `Ads1263::get_mode`. -/
def Ads1263.get_mode (a : Ads1263) : InputMode :=
  a.scan_mode

/-- Embedding of `Ads1263::config_adc1`. -/
def Ads1263.config_adc1 (a : Ads1263) (gain : Gain) (drate : DataRate)
    (delay : Delay) : Except Ads1263Error Unit × Ads1263 :=
  let mode2 := 0x80 ||| (gain.toByte <<< 4) ||| drate.toByte
  match a.write_reg_verify .Mode2 mode2 "REG_MODE2" with
  | (.error e, a) => (.error e, a)
  | (.ok _, a) =>
    let refmux := ReferenceSource.AvddAvss.toByte
    match a.write_reg_verify .RefMux refmux "REG_REFMUX" with
    | (.error e, a) => (.error e, a)
    | (.ok _, a) =>
      let mode0 := delay.toByte
      match a.write_reg_verify .Mode0 mode0 "REG_MODE0" with
      | (.error e, a) => (.error e, a)
      | (.ok _, a) =>
        let mode1 := DigitalFilter.Fir.toByte
        a.write_reg_verify .Mode1 mode1 "REG_MODE1"

/-- Embedding of `Ads1263::init_adc1`: reset, verify chip id (top 3 bits of
the identity register must be 1), then stop, configure and start ADC1. -/
def Ads1263.init_adc1 (a : Ads1263) (rate : DataRate) :
    Except Ads1263Error Unit × Ads1263 :=
  let a := a.reset
  match a.read_chip_id with
  | (.error e, a) => (.error e, a)
  | (.ok chip_id, a) =>
    if chip_id = 1 then
      let a : Ads1263 := { a with hal := a.hal.emit (.logInfo "Chip ID verified") }
      match a.write_cmd .Stop1 with
      | (.error e, a) => (.error e, a)
      | (.ok _, a) =>
        match a.config_adc1 .Gain1 rate .Delay35us with
        | (.error e, a) => (.error e, a)
        | (.ok _, a) =>
          match a.write_cmd .Start1 with
          | (.error e, a) => (.error e, a)
          | (.ok _, a) =>
            (.ok (), { a with hal := a.hal.emit (.logInfo "ADC1 initialized") })
    else
      (.error (.InvalidChipId chip_id),
        { a with hal := a.hal.emit (.logError "Invalid chip ID") })

/-- Embedding of `Ads1263::config_adc2`. -/
def Ads1263.config_adc2 (a : Ads1263) (gain : Adc2Gain) (drate : Adc2DataRate)
    (delay : Delay) : Except Ads1263Error Unit × Ads1263 :=
  let adc2cfg := 0x20 ||| (drate.toByte <<< 6) ||| gain.toByte
  match a.write_reg_verify .Adc2Cfg adc2cfg "REG_ADC2CFG" with
  | (.error e, a) => (.error e, a)
  | (.ok _, a) =>
    let mode0 := delay.toByte
    a.write_reg_verify .Mode0 mode0 "REG_MODE0"

/-- Embedding of `Ads1263::init_adc2`: reset, verify chip id, then stop and
configure ADC2 (no start command here). -/
def Ads1263.init_adc2 (a : Ads1263) (rate : Adc2DataRate) :
    Except Ads1263Error Unit × Ads1263 :=
  let a := a.reset
  match a.read_chip_id with
  | (.error e, a) => (.error e, a)
  | (.ok chip_id, a) =>
    if chip_id = 1 then
      let a : Ads1263 := { a with hal := a.hal.emit (.logInfo "Chip ID verified") }
      match a.write_cmd .Stop2 with
      | (.error e, a) => (.error e, a)
      | (.ok _, a) =>
        match a.config_adc2 .Gain1 rate .Delay35us with
        | (.error e, a) => (.error e, a)
        | (.ok _, a) =>
          (.ok (), { a with hal := a.hal.emit (.logInfo "ADC2 initialized") })
    else
      (.error (.InvalidChipId chip_id),
        { a with hal := a.hal.emit (.logError "Invalid chip ID") })

/-- Embedding of `Ads1263::set_channel` (single-ended, ADC1). -/
def Ads1263.set_channel (a : Ads1263) (channel : Nat) :
    Except Ads1263Error Unit × Ads1263 :=
  if channel > 10 then
    (.error (.InvalidChannel channel 10), a)
  else
    let inpmux := (channel <<< 4) ||| 0x0A
    a.write_reg .InpMux inpmux

/-- Embedding of `Ads1263::set_diff_channel` (differential, ADC1). -/
def Ads1263.set_diff_channel (a : Ads1263) (channel : Nat) :
    Except Ads1263Error Unit × Ads1263 :=
  match channel with
  | 0 => a.write_reg .InpMux ((0 <<< 4) ||| 1)
  | 1 => a.write_reg .InpMux ((2 <<< 4) ||| 3)
  | 2 => a.write_reg .InpMux ((4 <<< 4) ||| 5)
  | 3 => a.write_reg .InpMux ((6 <<< 4) ||| 7)
  | 4 => a.write_reg .InpMux ((8 <<< 4) ||| 9)
  | _ => (.error (.InvalidChannel channel 4), a)

/-- Embedding of `Ads1263::set_channel_adc2` (single-ended, ADC2). -/
def Ads1263.set_channel_adc2 (a : Ads1263) (channel : Nat) :
    Except Ads1263Error Unit × Ads1263 :=
  if channel > 10 then
    (.error (.InvalidChannel channel 10), a)
  else
    let inpmux := (channel <<< 4) ||| 0x0A
    a.write_reg .Adc2Mux inpmux

/-- Embedding of `Ads1263::set_diff_channel_adc2` (differential, ADC2). -/
def Ads1263.set_diff_channel_adc2 (a : Ads1263) (channel : Nat) :
    Except Ads1263Error Unit × Ads1263 :=
  match channel with
  | 0 => a.write_reg .Adc2Mux ((0 <<< 4) ||| 1)
  | 1 => a.write_reg .Adc2Mux ((2 <<< 4) ||| 3)
  | 2 => a.write_reg .Adc2Mux ((4 <<< 4) ||| 5)
  | 3 => a.write_reg .Adc2Mux ((6 <<< 4) ||| 7)
  | 4 => a.write_reg .Adc2Mux ((8 <<< 4) ||| 9)
  | _ => (.error (.InvalidChannel channel 4), a)

/-- Status-polling loop of `read_adc1_data`: send `RDATA1`, read the status
byte, accept once bit 6 (`0x40`) is set.  `fuel` bounds the unbounded
`loop`. -/
def Ads1263.rdata1_loop : Nat → Ads1263 → Option (Nat × Ads1263)
  | 0, _ => none
  | fuel + 1, a =>
    let h := a.hal.spi_write_byte Command.RData1.toByte
    let (s, h) := h.spi_read_byte
    let a : Ads1263 := { a with hal := h }
    if s &&& 0x40 ≠ 0 then some (s, a)
    else Ads1263.rdata1_loop fuel a

/-- Embedding of `Ads1263::read_adc1_data`: poll until status bit 6 is set,
then read 4 data bytes (big-endian) plus a CRC byte; a checksum mismatch
only logs a warning and the sample is returned regardless. -/
def Ads1263.read_adc1_data (fuel : Nat) (a : Ads1263) :
    Option (Except Ads1263Error Nat × Ads1263) :=
  let a : Ads1263 := { a with hal := a.hal.set_cs false }
  match Ads1263.rdata1_loop fuel a with
  | none => none
  | some (_s, a) =>
    let (b0, h) := a.hal.spi_read_byte
    let (b1, h) := h.spi_read_byte
    let (b2, h) := h.spi_read_byte
    let (b3, h) := h.spi_read_byte
    let (crc, h) := h.spi_read_byte
    let h := h.set_cs true
    let data := (b0 <<< 24) ||| (b1 <<< 16) ||| (b2 <<< 8) ||| b3
    let h : Hal := { h with
      events := h.events ++
        (if checksum data crc then [] else [.logWarn "ADC1 checksum error"]) }
    some (.ok data, { a with hal := h })

/-- Status-polling loop of `read_adc2_data`: send `RDATA2`, read the status
byte, accept once bit 7 (`0x80`) is set. -/
def Ads1263.rdata2_loop : Nat → Ads1263 → Option (Nat × Ads1263)
  | 0, _ => none
  | fuel + 1, a =>
    let h := a.hal.spi_write_byte Command.RData2.toByte
    let (s, h) := h.spi_read_byte
    let a : Ads1263 := { a with hal := h }
    if s &&& 0x80 ≠ 0 then some (s, a)
    else Ads1263.rdata2_loop fuel a

/-- Embedding of `Ads1263::read_adc2_data`: poll until status bit 7 is set,
then read 3 data bytes (big-endian into the low 24 bits), one padding byte
and a CRC byte; a checksum mismatch only logs a warning. -/
def Ads1263.read_adc2_data (fuel : Nat) (a : Ads1263) :
    Option (Except Ads1263Error Nat × Ads1263) :=
  let a : Ads1263 := { a with hal := a.hal.set_cs false }
  match Ads1263.rdata2_loop fuel a with
  | none => none
  | some (_s, a) =>
    let (b0, h) := a.hal.spi_read_byte
    let (b1, h) := h.spi_read_byte
    let (b2, h) := h.spi_read_byte
    let (_b3, h) := h.spi_read_byte
    let (crc, h) := h.spi_read_byte
    let h := h.set_cs true
    let data := (b0 <<< 16) ||| (b1 <<< 8) ||| b2
    let h : Hal := { h with
      events := h.events ++
        (if checksum data crc then [] else [.logWarn "ADC2 checksum error"]) }
    some (.ok data, { a with hal := h })

/-- Embedding of `Ads1263::get_channel_value`: dispatch on the scan mode,
select the channel, wait for DRDY, read ADC1 data. -/
def Ads1263.get_channel_value (a : Ads1263) (fuel : Nat) (channel : Nat) :
    Option (Except Ads1263Error Nat × Ads1263) :=
  match a.scan_mode with
  | .SingleEnded =>
    if channel > 10 then
      some (.error (.InvalidChannel channel 10), a)
    else
      match a.set_channel channel with
      | (.error e, a) => some (.error e, a)
      | (.ok _, a) =>
        let a : Ads1263 := { a with hal := a.hal.wait_drdy }
        Ads1263.read_adc1_data fuel a
  | .Differential =>
    if channel > 4 then
      some (.error (.InvalidChannel channel 4), a)
    else
      match a.set_diff_channel channel with
      | (.error e, a) => some (.error e, a)
      | (.ok _, a) =>
        let a : Ads1263 := { a with hal := a.hal.wait_drdy }
        Ads1263.read_adc1_data fuel a

/-- Event classifier for C6: SPI writes of the `Start1/Stop1/Start2/Stop2`
command bytes or of any `WReg` command byte (`0x40..0x5F`). -/
def startStopOrCfgWrite : Event → Bool
  | .spiWrite b =>
    b == 0x08 || b == 0x0A || b == 0x0C || b == 0x0E || (0x40 ≤ b && b < 0x60)
  | _ => false

/-- Test fixture: a fresh HAL whose SPI response stream is the given list
(then zeros), with nothing read and an empty log. -/
def mkHal (l : List Nat) : Hal :=
  { reads := fun n => l.getD n 0, nread := 0, events := [] }

/-- Test fixture: a freshly constructed driver over `mkHal l`. -/
def mkSt (l : List Nat) : Ads1263 :=
  Ads1263.new (mkHal l)

/-! ## Helper lemmas about bits and the checksum loop -/

theorem xor_two_pow_of_testBit_eq_false :
    ∀ (i n : Nat), n.testBit i = false → n ^^^ 2 ^ i = n + 2 ^ i := by
  intro i
  induction i with
  | zero =>
    intro n h
    have h2 : n % 2 = 0 := by
      simpa [Nat.testBit_zero] using h
    obtain ⟨m, rfl⟩ : ∃ m, n = 2 * m := ⟨n / 2, by omega⟩
    have hx := Nat.xor_bit false m true 0
    simp [Nat.bit] at hx
    simpa using hx
  | succ i ih =>
    intro n h
    have hrec := ih (n / 2) (by rw [← Nat.testBit_succ]; exact h)
    have hpow : (2 : Nat) ^ (i + 1) = 2 * 2 ^ i := by ring
    have h2 : n % 2 = 0 ∨ n % 2 = 1 := by omega
    rcases h2 with h2 | h2
    · obtain ⟨m, hm⟩ : ∃ m, n = 2 * m := ⟨n / 2, by omega⟩
      subst hm
      have hdiv : 2 * m / 2 = m := by omega
      rw [hdiv] at hrec
      have hx := Nat.xor_bit false m false (2 ^ i)
      simp [Nat.bit] at hx
      rw [hpow, hx, hrec]; ring
    · obtain ⟨m, hm⟩ : ∃ m, n = 2 * m + 1 := ⟨n / 2, by omega⟩
      subst hm
      have hdiv : (2 * m + 1) / 2 = m := by omega
      rw [hdiv] at hrec
      have hx := Nat.xor_bit true m false (2 ^ i)
      simp [Nat.bit] at hx
      rw [hpow, hx, hrec]; ring

theorem xor_two_pow_of_testBit_eq_true (i n : Nat) (h : n.testBit i = true) :
    n ^^^ 2 ^ i = n - 2 ^ i ∧ 2 ^ i ≤ n := by
  have hw : (n ^^^ 2 ^ i).testBit i = false := by
    simp [Nat.testBit_xor, h, Nat.testBit_two_pow_self]
  have hflip := xor_two_pow_of_testBit_eq_false i (n ^^^ 2 ^ i) hw
  rw [Nat.xor_cancel_right] at hflip
  omega

theorem byteSum_step (v : Nat) : byteSum v = v % 256 + byteSum (v / 256) := by
  by_cases h : v = 0
  · subst h; simp [byteSum]
  · rw [byteSum]; simp [h]

theorem byteSum_zero : byteSum 0 = 0 := by
  simp [byteSum]

theorem checksumLoop_eq_byteSum :
    ∀ (v sum : Nat), sum < 256 → checksumLoop sum v = (sum + byteSum v) % 256 := by
  intro v
  induction v using Nat.strong_induction_on with
  | _ v ih =>
    intro sum hs
    by_cases h : v = 0
    · subst h
      rw [checksumLoop, byteSum_zero]
      simp [Nat.mod_eq_of_lt hs]
    · rw [checksumLoop]
      simp only [h, dite_false]
      have hlt : v / 256 < v := Nat.div_lt_self (Nat.pos_of_ne_zero h) (by omega)
      rw [ih (v / 256) hlt _ (Nat.mod_lt _ (by omega))]
      rw [byteSum_step v]
      omega

theorem byteSum_of_lt_two_pow_32 (v : Nat) (hv : v < 2 ^ 32) :
    byteSum v = v % 256 + v / 256 % 256 + v / 65536 % 256 + v / 16777216 % 256 := by
  rw [byteSum_step v, byteSum_step (v / 256), byteSum_step (v / 256 / 256),
    byteSum_step (v / 256 / 256 / 256)]
  have hz : v / 256 / 256 / 256 / 256 = 0 := by omega
  rw [hz, byteSum_zero]
  omega

theorem checksum_eq_iff (val crc : Nat) :
    checksum val crc = true ↔ wrappedSum val = crc := by
  unfold checksum wrappedSum
  rw [checksumLoop_eq_byteSum val 0 (by omega)]
  rw [decide_eq_true_iff]
  constructor <;> intro h <;> omega

theorem byteSum_add_two_pow :
    ∀ (j m k : Nat), k < 8 → m / 2 ^ (8 * j + k) % 2 = 0 →
      byteSum (m + 2 ^ (8 * j + k)) = byteSum m + 2 ^ k := by
  intro j
  induction j with
  | zero =>
    intro m k hk hbit
    norm_num at hbit ⊢
    rw [byteSum_step (m + 2 ^ k), byteSum_step m]
    have h1 : (m + 2 ^ k) % 256 = m % 256 + 2 ^ k ∧ (m + 2 ^ k) / 256 = m / 256 := by
      interval_cases k <;> norm_num at hbit ⊢ <;> omega
    rw [h1.1, h1.2]
    ring
  | succ j ih =>
    intro m k hk hbit
    have hexp : (2 : Nat) ^ (8 * (j + 1) + k) = 256 * 2 ^ (8 * j + k) := by
      rw [show 8 * (j + 1) + k = 8 + (8 * j + k) by ring, pow_add]
      norm_num
    rw [byteSum_step (m + 2 ^ (8 * (j + 1) + k)), byteSum_step m, hexp]
    have h1 : (m + 256 * 2 ^ (8 * j + k)) % 256 = m % 256 := by omega
    have h2 : (m + 256 * 2 ^ (8 * j + k)) / 256 = m / 256 + 2 ^ (8 * j + k) := by
      omega
    rw [h1, h2]
    have hbit' : m / 256 / 2 ^ (8 * j + k) % 2 = 0 := by
      rw [Nat.div_div_eq_div_mul]
      rw [show 256 * 2 ^ (8 * j + k) = 2 ^ (8 * (j + 1) + k) from hexp.symm]
      exact hbit
    rw [ih (m / 256) k hk hbit']
    ring

theorem wrappedSum_flip_ne (val i : Nat) :
    wrappedSum (val ^^^ 2 ^ i) ≠ wrappedSum val := by
  have hk8 : i % 8 < 8 := Nat.mod_lt _ (by omega)
  have hsplit : 8 * (i / 8) + i % 8 = i := by omega
  have hpow_le : (2 : Nat) ^ (i % 8) ≤ 128 := by
    calc (2 : Nat) ^ (i % 8) ≤ 2 ^ 7 := Nat.pow_le_pow_right (by omega) (by omega)
      _ = 128 := by norm_num
  have hpow_pos : 0 < (2 : Nat) ^ (i % 8) := Nat.two_pow_pos _
  cases htb : val.testBit i with
  | false =>
    have hx := xor_two_pow_of_testBit_eq_false i val htb
    have hbit : val / 2 ^ i % 2 = 0 := by
      have hdm := Nat.testBit_to_div_mod (x := val) (i := i)
      rw [htb] at hdm
      have : ¬ (val / 2 ^ i % 2 = 1) := by simpa using hdm.symm
      omega
    have hA := byteSum_add_two_pow (i / 8) val (i % 8) hk8 (by rw [hsplit]; exact hbit)
    rw [hsplit] at hA
    rw [hx]
    unfold wrappedSum
    rw [hA]
    omega
  | true =>
    obtain ⟨hx, hle⟩ := xor_two_pow_of_testBit_eq_true i val htb
    have hval_eq : val = (val - 2 ^ i) + 2 ^ i := by omega
    have hbitval : val / 2 ^ i % 2 = 1 := by
      have hdm := Nat.testBit_to_div_mod (x := val) (i := i)
      rw [htb] at hdm
      simpa using hdm.symm
    have hbitm : (val - 2 ^ i) / 2 ^ i % 2 = 0 := by
      have hdiv := Nat.add_div_right (val - 2 ^ i) (Nat.two_pow_pos i)
      rw [← hval_eq] at hdiv
      omega
    have hA := byteSum_add_two_pow (i / 8) (val - 2 ^ i) (i % 8) hk8
      (by rw [hsplit]; exact hbitm)
    rw [hsplit] at hA
    rw [hx]
    conv_rhs => rw [hval_eq]
    unfold wrappedSum
    rw [hA]
    omega

/-! ## Claims C1-C4 (pure functions) -/

/-- C1 (amended): for every 32-bit raw code, `raw_to_voltage_adc1` equals the
spec's asymmetric mapping keyed on bit 31 (positive branch divides by
`2^31 - 1`, negative branch by `2^31`); for every 24-bit raw code,
`raw_to_voltage_adc2` equals the analogous mapping keyed on bit 23.  (As
stated over all 32-bit codes, the ADC2 half fails: the code tests
`raw >> 23 == 1`, which differs from `testBit 23` once `raw ≥ 2^24`.) -/
theorem claim_C1 (raw : Nat) (vref : ℚ) :
    (raw < 2 ^ 32 → raw_to_voltage_adc1 raw vref = specVoltageAdc1 raw vref) ∧
    (raw < 2 ^ 24 → raw_to_voltage_adc2 raw vref = specVoltageAdc2 raw vref) := by
  constructor
  · intro h32
    unfold raw_to_voltage_adc1 specVoltageAdc1
    rw [Nat.shiftRight_eq_div_pow, Nat.testBit_to_div_mod]
    have h2 : raw / 2 ^ 31 = 0 ∨ raw / 2 ^ 31 = 1 := by omega
    rcases h2 with h2 | h2 <;> rw [h2] <;> norm_num <;> ring
  · intro h24
    unfold raw_to_voltage_adc2 specVoltageAdc2
    rw [Nat.shiftRight_eq_div_pow, Nat.testBit_to_div_mod]
    have h2 : raw / 2 ^ 23 = 0 ∨ raw / 2 ^ 23 = 1 := by omega
    rcases h2 with h2 | h2 <;> rw [h2] <;> norm_num <;> ring

/-- C1 counterexample: `raw = 0x1800000` is a 32-bit code with bit 23 set,
but `raw_to_voltage_adc2` does not return the claimed negative-branch value
(the code tests `raw >> 23 == 1`, and here `raw >> 23 = 3`). -/
theorem claim_C1_counterexample :
    Nat.testBit 25165824 23 = true ∧
    raw_to_voltage_adc2 25165824 1 ≠ -(2 * 1 - ((25165824 : ℚ) / 2 ^ 23) * 1) := by
  constructor
  · decide
  · unfold raw_to_voltage_adc2
    have h : (25165824 : Nat) >>> 23 = 3 := by
      rw [Nat.shiftRight_eq_div_pow]
    rw [h]
    norm_num

/-- C1 witness: the amended claim applied at concrete in-range inputs. -/
theorem claim_C1_witness :
    raw_to_voltage_adc1 3 1 = specVoltageAdc1 3 1 ∧
    raw_to_voltage_adc2 5 1 = specVoltageAdc2 5 1 :=
  ⟨(claim_C1 3 1).1 (by norm_num), (claim_C1 5 1).2 (by norm_num)⟩

/-- C2 (amended): for positive `vref`, `raw_to_voltage_adc1` is strictly
increasing on the codes with bit 31 clear and on the codes with bit 31 set,
with a discontinuity at the boundary: `0x7FFFFFFF ↦ vref` (which is within
`vref/2^31` of the spec's `vref·(1 - 2⁻³¹)`) and `0x80000000 ↦ -vref` (the
claim's `-2·vref` is wrong).  The analogous facts hold for
`raw_to_voltage_adc2` on 24-bit codes at bit 23. -/
theorem claim_C2 (vref : ℚ) (hv : 0 < vref) :
    (∀ r1 r2 : Nat, r1 < r2 → r2 < 2 ^ 31 →
      raw_to_voltage_adc1 r1 vref < raw_to_voltage_adc1 r2 vref) ∧
    (∀ r1 r2 : Nat, 2 ^ 31 ≤ r1 → r1 < r2 → r2 < 2 ^ 32 →
      raw_to_voltage_adc1 r1 vref < raw_to_voltage_adc1 r2 vref) ∧
    raw_to_voltage_adc1 0x7FFFFFFF vref = vref ∧
    |raw_to_voltage_adc1 0x7FFFFFFF vref - vref * (1 - 1 / 2 ^ 31)| ≤ vref / 2 ^ 31 ∧
    raw_to_voltage_adc1 0x80000000 vref = -vref ∧
    (∀ r1 r2 : Nat, r1 < r2 → r2 < 2 ^ 23 →
      raw_to_voltage_adc2 r1 vref < raw_to_voltage_adc2 r2 vref) ∧
    (∀ r1 r2 : Nat, 2 ^ 23 ≤ r1 → r1 < r2 → r2 < 2 ^ 24 →
      raw_to_voltage_adc2 r1 vref < raw_to_voltage_adc2 r2 vref) ∧
    raw_to_voltage_adc2 0x7FFFFF vref = vref ∧
    raw_to_voltage_adc2 0x800000 vref = -vref := by
  have hb1 : raw_to_voltage_adc1 0x7FFFFFFF vref = vref := by
    unfold raw_to_voltage_adc1
    rw [Nat.shiftRight_eq_div_pow]
    norm_num
  refine ⟨?_, ?_, hb1, ?_, ?_, ?_, ?_, ?_, ?_⟩
  · intro r1 r2 h12 h2
    unfold raw_to_voltage_adc1
    rw [Nat.shiftRight_eq_div_pow, Nat.shiftRight_eq_div_pow,
      Nat.div_eq_of_lt (by omega), Nat.div_eq_of_lt (by omega)]
    norm_num
    have hc : (r1 : ℚ) < r2 := by exact_mod_cast h12
    gcongr
  · intro r1 r2 h1 h12 h2
    unfold raw_to_voltage_adc1
    rw [Nat.shiftRight_eq_div_pow, Nat.shiftRight_eq_div_pow]
    have e1 : r1 / 2 ^ 31 = 1 := by omega
    have e2 : r2 / 2 ^ 31 = 1 := by omega
    rw [e1, e2]
    norm_num
    have hc : (r1 : ℚ) < r2 := by exact_mod_cast h12
    have key : (r1 : ℚ) / 2147483648 * vref < (r2 : ℚ) / 2147483648 * vref := by
      gcongr
    linarith
  · rw [hb1]
    have he : vref - vref * (1 - 1 / 2 ^ 31) = vref / 2 ^ 31 := by ring
    rw [he, abs_of_nonneg (by positivity)]
  · unfold raw_to_voltage_adc1
    rw [Nat.shiftRight_eq_div_pow]
    norm_num
    ring
  · intro r1 r2 h12 h2
    unfold raw_to_voltage_adc2
    rw [Nat.shiftRight_eq_div_pow, Nat.shiftRight_eq_div_pow,
      Nat.div_eq_of_lt (by omega), Nat.div_eq_of_lt (by omega)]
    norm_num
    have hc : (r1 : ℚ) < r2 := by exact_mod_cast h12
    gcongr
  · intro r1 r2 h1 h12 h2
    unfold raw_to_voltage_adc2
    rw [Nat.shiftRight_eq_div_pow, Nat.shiftRight_eq_div_pow]
    have e1 : r1 / 2 ^ 23 = 1 := by omega
    have e2 : r2 / 2 ^ 23 = 1 := by omega
    rw [e1, e2]
    norm_num
    have hc : (r1 : ℚ) < r2 := by exact_mod_cast h12
    have key : (r1 : ℚ) / 8388608 * vref < (r2 : ℚ) / 8388608 * vref := by
      gcongr
    linarith
  · unfold raw_to_voltage_adc2
    rw [Nat.shiftRight_eq_div_pow]
    norm_num
  · unfold raw_to_voltage_adc2
    rw [Nat.shiftRight_eq_div_pow]
    norm_num
    ring

/-- C2 counterexample: at `raw = 0x80000000` the primary conversion yields
`-vref` (here `-1` for `vref = 1`), not the claimed `-2·vref`. -/
theorem claim_C2_counterexample :
    raw_to_voltage_adc1 0x80000000 1 = -1 ∧ (-1 : ℚ) ≠ -(2 * 1) := by
  constructor
  · unfold raw_to_voltage_adc1
    rw [Nat.shiftRight_eq_div_pow]
    norm_num
  · norm_num

/-- C2 witness: the amended claim applied at `vref = 1` and concrete codes. -/
theorem claim_C2_witness :
    raw_to_voltage_adc1 0 1 < raw_to_voltage_adc1 1 1 ∧
    raw_to_voltage_adc1 0x80000000 1 = -1 := by
  have h := claim_C2 1 (by norm_num)
  exact ⟨h.1 0 1 (by norm_num) (by norm_num), h.2.2.2.2.1⟩

/-- C3: for every 32-bit `val` and byte `crc`, `checksum val crc` is true
exactly when the 8-bit wrapping sum of the little-endian bytes of `val`
plus the constant `0x9B` (mod 256) equals `crc`; in particular
`checksum 0 0x9B = true`. -/
theorem claim_C3 :
    (∀ val crc : Nat, val < 2 ^ 32 → crc < 256 →
      (checksum val crc = true ↔
        (val % 256 + val / 256 % 256 + val / 65536 % 256 + val / 16777216 % 256
          + 0x9B) % 256 = crc)) ∧
    checksum 0 0x9B = true := by
  constructor
  · intro val crc hval _hcrc
    rw [checksum_eq_iff]
    unfold wrappedSum
    rw [byteSum_of_lt_two_pow_32 val hval]
  · rw [checksum_eq_iff]
    unfold wrappedSum
    rw [byteSum_zero]

/-- C3 witness: the equivalence applied at `val = 0x12345678`, whose byte sum
is `0x78 + 0x56 + 0x34 + 0x12 = 276`, so the expected CRC is
`(276 + 155) % 256 = 175`. -/
theorem claim_C3_witness : checksum 305419896 175 = true := by
  exact (claim_C3.1 305419896 175 (by norm_num) (by norm_num)).mpr (by norm_num)

/-- C4: flipping any single bit of a 32-bit `val` (leaving the byte `crc`
unchanged) turns a passing checksum into a failing one. -/
theorem claim_C4 (val crc i : Nat) (hval : val < 2 ^ 32) (hcrc : crc < 256)
    (hi : i < 32) (hok : checksum val crc = true) :
    checksum (val ^^^ 2 ^ i) crc = false := by
  have h1 : wrappedSum val = crc := (checksum_eq_iff val crc).mp hok
  have hne := wrappedSum_flip_ne val i
  cases hc : checksum (val ^^^ 2 ^ i) crc with
  | false => rfl
  | true =>
    have h2 : wrappedSum (val ^^^ 2 ^ i) = crc := (checksum_eq_iff _ crc).mp hc
    exact absurd (h2.trans h1.symm) hne

/-- C4 witness: flipping bit 0 of `val = 0` breaks the valid pair
`(0, 0x9B)`. -/
theorem claim_C4_witness : checksum (0 ^^^ 2 ^ 0) 0x9B = false :=
  claim_C4 0 0x9B 0 (by norm_num) (by norm_num) (by norm_num)
    (by rw [checksum_eq_iff]; unfold wrappedSum; rw [byteSum_zero])

/-! ## Claims C5-C10 (driver state machine) -/

/-- C7: `write_reg_verify` reports success to its caller for every register,
data byte and read-back byte (given the transport itself succeeds); a
read-back mismatch only emits a warning diagnostic. -/
theorem claim_C7 (a : Ads1263) (reg : Register) (data : Nat) (name : String) :
    (a.write_reg_verify reg data name).1 = .ok () ∧
    (a.hal.reads a.hal.nread % 256 ≠ data →
      Event.logWarn name ∈ (a.write_reg_verify reg data name).2.hal.events) := by
  by_cases hm : a.hal.reads a.hal.nread % 256 = data <;>
    simp [Ads1263.write_reg_verify, Ads1263.write_reg, Ads1263.read_reg,
      Hal.set_cs, Hal.spi_write_byte, Hal.spi_read_byte, Hal.delay_ms,
      Hal.emit, hm]

/-- C7 witness: a concrete run where the read-back byte (0) differs from the
written byte (5): the call still returns `Ok` and logs the warning. -/
theorem claim_C7_witness :
    ((mkSt []).write_reg_verify .Mode2 5 "REG_MODE2").1 = .ok () ∧
    Event.logWarn "REG_MODE2" ∈
      ((mkSt []).write_reg_verify .Mode2 5 "REG_MODE2").2.hal.events := by
  have h := claim_C7 (mkSt []) .Mode2 5 "REG_MODE2"
  exact ⟨h.1, h.2 (by decide)⟩

/-- Membership in the event log is preserved by the `rdata1_loop` polling
loop (it only appends events). -/
theorem rdata1_loop_events_sub :
    ∀ (fuel : Nat) (a : Ads1263) (s : Nat) (a' : Ads1263),
      Ads1263.rdata1_loop fuel a = some (s, a') →
      ∀ e, e ∈ a.hal.events → e ∈ a'.hal.events := by
  intro fuel
  induction fuel with
  | zero => intro a s a' h; simp [Ads1263.rdata1_loop] at h
  | succ fuel ih =>
    intro a s a' h
    rw [Ads1263.rdata1_loop] at h
    simp only [Hal.spi_write_byte, Hal.spi_read_byte, Hal.emit] at h
    split at h
    · simp only [Option.some.injEq, Prod.mk.injEq] at h
      obtain ⟨-, rfl⟩ := h
      intro e he
      simp [he]
    · intro e he
      exact ih _ _ _ h e (by simp [he])

/-- Membership in the event log is preserved by `read_adc1_data`. -/
theorem read_adc1_data_events_sub
    (fuel : Nat) (a : Ads1263) (r : Except Ads1263Error Nat) (a' : Ads1263)
    (h : Ads1263.read_adc1_data fuel a = some (r, a')) :
    ∀ e, e ∈ a.hal.events → e ∈ a'.hal.events := by
  rw [Ads1263.read_adc1_data] at h
  cases hloop : Ads1263.rdata1_loop fuel { a with hal := a.hal.set_cs false } with
  | none => rw [hloop] at h; simp at h
  | some p =>
    obtain ⟨s, b⟩ := p
    rw [hloop] at h
    simp only [Hal.spi_read_byte, Hal.set_cs, Hal.emit, Option.some.injEq,
      Prod.mk.injEq] at h
    obtain ⟨-, rfl⟩ := h
    intro e he
    have h1 : e ∈ b.hal.events :=
      rdata1_loop_events_sub fuel _ s b hloop e (by simp [Hal.set_cs, Hal.emit, he])
    simp [h1]

/-- C5: channel-multiplexer encoding.  For `c ≤ 10`, `set_channel` issues a
`WReg` transaction on the input-multiplexer register (`0x40 ||| 0x06 = 0x46`)
with data byte `(c << 4) | 0x0A`; for `c > 10` it returns
`InvalidChannel c 10` without touching the bus.  `set_diff_channel` writes
the fixed pair byte `0x01/0x23/0x45/0x67/0x89` for `c = 0..4` and returns
`InvalidChannel c 4` otherwise.  The ADC2 variants behave identically on the
ADC2 multiplexer register (`0x40 ||| 0x16 = 0x56`). -/
theorem claim_C5 (c : Nat) (a : Ads1263) (hc : c < 256) :
    (c ≤ 10 →
      (a.set_channel c).1 = .ok () ∧
      (a.set_channel c).2.hal.events = a.hal.events ++
        [.csSet false, .spiWrite 0x46, .spiWrite 0,
          .spiWrite ((c <<< 4) ||| 0x0A), .csSet true] ∧
      (a.set_channel_adc2 c).1 = .ok () ∧
      (a.set_channel_adc2 c).2.hal.events = a.hal.events ++
        [.csSet false, .spiWrite 0x56, .spiWrite 0,
          .spiWrite ((c <<< 4) ||| 0x0A), .csSet true]) ∧
    (10 < c →
      a.set_channel c = (.error (.InvalidChannel c 10), a) ∧
      a.set_channel_adc2 c = (.error (.InvalidChannel c 10), a)) ∧
    (c < 5 →
      (a.set_diff_channel c).1 = .ok () ∧
      (a.set_diff_channel c).2.hal.events = a.hal.events ++
        [.csSet false, .spiWrite 0x46, .spiWrite 0,
          .spiWrite ([0x01, 0x23, 0x45, 0x67, 0x89].getD c 0), .csSet true] ∧
      (a.set_diff_channel_adc2 c).1 = .ok () ∧
      (a.set_diff_channel_adc2 c).2.hal.events = a.hal.events ++
        [.csSet false, .spiWrite 0x56, .spiWrite 0,
          .spiWrite ([0x01, 0x23, 0x45, 0x67, 0x89].getD c 0), .csSet true]) ∧
    (4 < c →
      a.set_diff_channel c = (.error (.InvalidChannel c 4), a) ∧
      a.set_diff_channel_adc2 c = (.error (.InvalidChannel c 4), a)) := by
  refine ⟨?_, ?_, ?_, ?_⟩
  · intro h10
    have hshift : c <<< 4 = c * 16 := by
      rw [Nat.shiftLeft_eq]
    have hlt : (c <<< 4) ||| 0x0A < 256 := by
      have h1 : c <<< 4 < 2 ^ 8 := by rw [hshift]; omega
      exact Nat.or_lt_two_pow h1 (by norm_num)
    have hmux : ((c <<< 4) ||| 0x0A) % 256 = (c <<< 4) ||| 0x0A :=
      Nat.mod_eq_of_lt hlt
    simp [Ads1263.set_channel, Ads1263.set_channel_adc2, Ads1263.write_reg,
      Hal.set_cs, Hal.spi_write_byte, Hal.emit, Register.toByte, Command.toByte,
      show ¬ (10 < c) from by omega, hmux]
  · intro h10
    simp [Ads1263.set_channel, Ads1263.set_channel_adc2, h10]
  · intro h5
    interval_cases c <;>
      simp [Ads1263.set_diff_channel, Ads1263.set_diff_channel_adc2,
        Ads1263.write_reg, Hal.set_cs, Hal.spi_write_byte, Hal.emit,
        Register.toByte, Command.toByte]
  · intro h5
    obtain ⟨n, rfl⟩ : ∃ n, c = n + 5 := ⟨c - 5, by omega⟩
    simp [Ads1263.set_diff_channel, Ads1263.set_diff_channel_adc2]

/-- C5 witness: concrete instances, including `c = 0 ↦ 0x0A`, `c = 10 ↦
0xAA`, differential `c = 2 ↦ 0x45`, and both out-of-range errors. -/
theorem claim_C5_witness :
    ((mkSt []).set_channel 10).2.hal.events =
      [.csSet false, .spiWrite 0x46, .spiWrite 0, .spiWrite 0xAA, .csSet true] ∧
    ((mkSt []).set_diff_channel 2).2.hal.events =
      [.csSet false, .spiWrite 0x46, .spiWrite 0, .spiWrite 0x45, .csSet true] ∧
    (mkSt []).set_channel 11 = (.error (.InvalidChannel 11 10), mkSt []) ∧
    (mkSt []).set_diff_channel 5 = (.error (.InvalidChannel 5 4), mkSt []) := by
  refine ⟨?_, ?_, ?_, ?_⟩
  · have h := ((claim_C5 10 (mkSt []) (by norm_num)).1 (by norm_num)).2.1
    rw [h]; rfl
  · have h := ((claim_C5 2 (mkSt []) (by norm_num)).2.2.1 (by norm_num)).2.1
    rw [h]; rfl
  · exact ((claim_C5 11 (mkSt []) (by norm_num)).2.1 (by norm_num)).1
  · exact ((claim_C5 5 (mkSt []) (by norm_num)).2.2.2 (by norm_num)).1

/-- C6: if after reset the identity register's top 3 bits are not 1, then
`init_adc1` and `init_adc2` return `InvalidChipId` carrying that value, and
the actions performed contain no start, stop or configuration-register
(`WReg`) command — in particular no conversion is started. -/
theorem claim_C6 (a : Ads1263) (rate1 : DataRate) (rate2 : Adc2DataRate)
    (hid : (a.hal.reads a.hal.nread % 256) >>> 5 ≠ 1) :
    (a.init_adc1 rate1).1 =
      .error (.InvalidChipId ((a.hal.reads a.hal.nread % 256) >>> 5)) ∧
    (((a.init_adc1 rate1).2.hal.events.drop a.hal.events.length).all
      (fun e => !startStopOrCfgWrite e)) = true ∧
    (a.init_adc2 rate2).1 =
      .error (.InvalidChipId ((a.hal.reads a.hal.nread % 256) >>> 5)) ∧
    (((a.init_adc2 rate2).2.hal.events.drop a.hal.events.length).all
      (fun e => !startStopOrCfgWrite e)) = true := by
  refine ⟨?_, ?_, ?_, ?_⟩ <;>
    simp [Ads1263.init_adc1, Ads1263.init_adc2, Ads1263.reset,
      Ads1263.read_chip_id, Ads1263.read_reg, Hal.set_rst, Hal.set_cs,
      Hal.delay_ms, Hal.spi_write_byte, Hal.spi_read_byte, Hal.emit,
      Register.toByte, Command.toByte, hid, startStopOrCfgWrite,
      List.drop_left']

/-- C6 witness: a HAL whose identity register reads `0xFF` (so the chip-id
field is 7): both initializations fail with `InvalidChipId 7` and issue no
start/stop/configuration command. -/
theorem claim_C6_witness :
    ((mkSt [0xFF]).init_adc1 .Sps400).1 = .error (.InvalidChipId 7) ∧
    ((((mkSt [0xFF]).init_adc1 .Sps400).2.hal.events.drop 0).all
      (fun e => !startStopOrCfgWrite e)) = true := by
  have h := claim_C6 (mkSt [0xFF]) .Sps400 .Sps100 (by decide)
  refine ⟨?_, ?_⟩
  · have h1 := h.1
    simpa [mkSt, mkHal] using h1
  · have h2 := h.2.1
    simpa [mkSt, mkHal] using h2

/-- C8: whenever `read_adc1_data` or `read_adc2_data` completes (the status
bit was seen within the fuel), it returns `Ok` with the assembled sample —
a checksum mismatch is only logged and never becomes an error return. -/
theorem claim_C8 (fuel : Nat) (a : Ads1263) (r : Except Ads1263Error Nat)
    (a' : Ads1263) :
    (Ads1263.read_adc1_data fuel a = some (r, a') → ∃ d, r = .ok d) ∧
    (Ads1263.read_adc2_data fuel a = some (r, a') → ∃ d, r = .ok d) := by
  constructor
  · intro h
    rw [Ads1263.read_adc1_data] at h
    cases hloop : Ads1263.rdata1_loop fuel { a with hal := a.hal.set_cs false } with
    | none => rw [hloop] at h; simp at h
    | some p =>
      obtain ⟨s, b⟩ := p
      rw [hloop] at h
      simp only [Hal.spi_read_byte, Option.some.injEq, Prod.mk.injEq] at h
      exact ⟨_, h.1.symm⟩
  · intro h
    rw [Ads1263.read_adc2_data] at h
    cases hloop : Ads1263.rdata2_loop fuel { a with hal := a.hal.set_cs false } with
    | none => rw [hloop] at h; simp at h
    | some p =>
      obtain ⟨s, b⟩ := p
      rw [hloop] at h
      simp only [Hal.spi_read_byte, Option.some.injEq, Prod.mk.injEq] at h
      exact ⟨_, h.1.symm⟩

/-- C8 witness: concrete runs whose trailing CRC byte (0) does not match the
computed checksum; both reads still return `Ok`. -/
theorem claim_C8_witness :
    (∃ d, (Ads1263.read_adc1_data 1 (mkSt [0x40, 1, 2, 3, 4, 0])).map Prod.fst =
      some (Except.ok d)) ∧
    (∃ d, (Ads1263.read_adc2_data 1 (mkSt [0x80, 1, 2, 3, 0, 0])).map Prod.fst =
      some (Except.ok d)) := by
  constructor
  · obtain ⟨p, hp⟩ :
        ∃ p, Ads1263.read_adc1_data 1 (mkSt [0x40, 1, 2, 3, 4, 0]) = some p :=
      ⟨_, rfl⟩
    obtain ⟨d, hd⟩ := (claim_C8 1 (mkSt [0x40, 1, 2, 3, 4, 0]) p.1 p.2).1 (by rw [hp])
    exact ⟨d, by rw [hp]; simp [hd]⟩
  · obtain ⟨p, hp⟩ :
        ∃ p, Ads1263.read_adc2_data 1 (mkSt [0x80, 1, 2, 3, 0, 0]) = some p :=
      ⟨_, rfl⟩
    obtain ⟨d, hd⟩ := (claim_C8 1 (mkSt [0x80, 1, 2, 3, 0, 0]) p.1 p.2).2 (by rw [hp])
    exact ⟨d, by rw [hp]; simp [hd]⟩

/-- C9 (amended): `read_adc2_data` accepts a frame once a status byte has
bit 7 set (a clear bit 7 makes the loop poll again), whereas `read_adc1_data`
accepts on bit 6; after the status byte, 5 further bytes are read (3 data
bytes assembled big-endian into the low 24 bits — so the result is below
`2^24` — then one padding byte and one checksum byte), for 6 SPI reads in
total including the status byte.  (The claim's "6 bytes read after the
status byte" is off by one.) -/
theorem claim_C9 (fuel : Nat) (a : Ads1263) :
    ((a.hal.reads a.hal.nread % 256) &&& 0x80 ≠ 0 →
      (Ads1263.read_adc2_data (fuel + 1) a).map Prod.fst =
        some (.ok (((a.hal.reads (a.hal.nread + 1) % 256) <<< 16) |||
                   ((a.hal.reads (a.hal.nread + 2) % 256) <<< 8) |||
                   (a.hal.reads (a.hal.nread + 3) % 256))) ∧
      (Ads1263.read_adc2_data (fuel + 1) a).map (fun p => p.2.hal.nread) =
        some (a.hal.nread + 6) ∧
      (((a.hal.reads (a.hal.nread + 1) % 256) <<< 16) |||
       ((a.hal.reads (a.hal.nread + 2) % 256) <<< 8) |||
       (a.hal.reads (a.hal.nread + 3) % 256)) < 2 ^ 24) ∧
    ((a.hal.reads a.hal.nread % 256) &&& 0x80 = 0 →
      Ads1263.rdata2_loop (fuel + 1) a =
        Ads1263.rdata2_loop fuel
          { a with hal := (a.hal.spi_write_byte Command.RData2.toByte).spi_read_byte.2 }) ∧
    ((a.hal.reads a.hal.nread % 256) &&& 0x40 ≠ 0 →
      (Ads1263.read_adc1_data (fuel + 1) a).map
          (fun p => (Prod.fst p).isOk) = some true) := by
  refine ⟨?_, ?_, ?_⟩
  · intro h
    refine ⟨?_, ?_, ?_⟩
    · rw [Ads1263.read_adc2_data, Ads1263.rdata2_loop]
      simp [Hal.set_cs, Hal.emit, Hal.spi_write_byte, Hal.spi_read_byte, h]
    · rw [Ads1263.read_adc2_data, Ads1263.rdata2_loop]
      simp [Hal.set_cs, Hal.emit, Hal.spi_write_byte, Hal.spi_read_byte, h]
    · have hb0 : a.hal.reads (a.hal.nread + 1) % 256 < 256 := Nat.mod_lt _ (by omega)
      have hb1 : a.hal.reads (a.hal.nread + 2) % 256 < 256 := Nat.mod_lt _ (by omega)
      have hb2 : a.hal.reads (a.hal.nread + 3) % 256 < 256 := Nat.mod_lt _ (by omega)
      have e0 : (a.hal.reads (a.hal.nread + 1) % 256) <<< 16 =
          (a.hal.reads (a.hal.nread + 1) % 256) * 65536 := by
        rw [Nat.shiftLeft_eq]
      have e1 : (a.hal.reads (a.hal.nread + 2) % 256) <<< 8 =
          (a.hal.reads (a.hal.nread + 2) % 256) * 256 := by
        rw [Nat.shiftLeft_eq]
      apply Nat.or_lt_two_pow (n := 24)
      · apply Nat.or_lt_two_pow (n := 24)
        · rw [e0]; omega
        · rw [e1]; omega
      · omega
  · intro h
    rw [Ads1263.rdata2_loop]
    simp [Hal.spi_write_byte, Hal.spi_read_byte, Hal.emit, h]
  · intro h
    rw [Ads1263.read_adc1_data, Ads1263.rdata1_loop]
    simp [Hal.set_cs, Hal.emit, Hal.spi_write_byte, Hal.spi_read_byte, h,
      Except.isOk, Except.toBool]

/-- C9 counterexample: on a concrete frame accepted at the first status
byte, 6 SPI reads happen in total — the status byte plus 5 more — not the
claimed 1 + 6 = 7. -/
theorem claim_C9_counterexample :
    (Ads1263.read_adc2_data 1 (mkSt [0x80, 1, 2, 3, 9, 0x55])).map
        (fun p => p.2.hal.nread) = some 6 ∧
    (Ads1263.read_adc2_data 1 (mkSt [0x80, 1, 2, 3, 9, 0x55])).map
        (fun p => p.2.hal.nread) ≠ some 7 := by
  constructor <;>
    simp [Ads1263.read_adc2_data, Ads1263.rdata2_loop, mkSt, mkHal,
      Ads1263.new, Hal.set_cs, Hal.spi_write_byte, Hal.spi_read_byte,
      Hal.emit, Command.toByte]

/-- C9 witness: the amended statement applied to a concrete frame. -/
theorem claim_C9_witness :
    (Ads1263.read_adc2_data 1 (mkSt [0x80, 0xAB, 0xCD, 0xEF, 0, 0])).map
        Prod.fst = some (.ok 0xABCDEF) ∧
    (Ads1263.read_adc2_data 1 (mkSt [0x80, 0xAB, 0xCD, 0xEF, 0, 0])).map
        (fun p => p.2.hal.nread) = some 6 := by
  obtain ⟨h1, h2, -⟩ := (claim_C9 0 (mkSt [0x80, 0xAB, 0xCD, 0xEF, 0, 0])).1
    (by decide)
  refine ⟨?_, ?_⟩
  · rw [h1]; rfl
  · rw [h2]; rfl

/-- C10: a driver freshly constructed by `Ads1263::new` is in single-ended
mode: `get_mode` returns `SingleEnded`, `get_channel_value` applies the
single-ended limit (rejecting channels above 10 with `InvalidChannel c 10`),
and any completed acquisition on channel `c ≤ 10` has written the
single-ended multiplexer byte `(c << 4) | 0x0A`. -/
theorem claim_C10 (h : Hal) (fuel : Nat) :
    (Ads1263.new h).get_mode = InputMode.SingleEnded ∧
    (∀ c : Nat, 10 < c →
      (Ads1263.new h).get_channel_value fuel c =
        some (.error (.InvalidChannel c 10), Ads1263.new h)) ∧
    (∀ c : Nat, c ≤ 10 → ∀ r a',
      (Ads1263.new h).get_channel_value fuel c = some (r, a') →
      Event.spiWrite ((c <<< 4) ||| 0x0A) ∈ a'.hal.events) := by
  refine ⟨rfl, ?_, ?_⟩
  · intro c hc
    simp [Ads1263.get_channel_value, Ads1263.new, hc]
  · intro c hc r a' hrun
    have hshift : c <<< 4 = c * 16 := by
      rw [Nat.shiftLeft_eq]
    have hlt : (c <<< 4) ||| 0x0A < 256 := by
      have h1 : c <<< 4 < 2 ^ 8 := by rw [hshift]; omega
      exact Nat.or_lt_two_pow h1 (by norm_num)
    have hmux : ((c <<< 4) ||| 0x0A) % 256 = (c <<< 4) ||| 0x0A :=
      Nat.mod_eq_of_lt hlt
    simp only [Ads1263.get_channel_value, Ads1263.new, Ads1263.set_channel,
      Ads1263.write_reg, Hal.set_cs, Hal.spi_write_byte, Hal.emit,
      Hal.wait_drdy, hmux, show ¬ (10 < c) from by omega, if_false,
      ite_false] at hrun
    exact read_adc1_data_events_sub fuel _ r a' hrun _ (by simp)

/-- C10 witness: a fresh driver reports single-ended mode, rejects channel
11, and a completed acquisition on channel 2 wrote multiplexer byte
`(2 << 4) | 0x0A = 0x2A`. -/
theorem claim_C10_witness :
    (Ads1263.new (mkHal [0x40, 1, 2, 3, 4, 0])).get_mode =
      InputMode.SingleEnded ∧
    (Ads1263.new (mkHal [0x40, 1, 2, 3, 4, 0])).get_channel_value 1 11 =
      some (.error (.InvalidChannel 11 10),
        Ads1263.new (mkHal [0x40, 1, 2, 3, 4, 0])) ∧
    ∃ p, (Ads1263.new (mkHal [0x40, 1, 2, 3, 4, 0])).get_channel_value 1 2 =
        some p ∧ Event.spiWrite 0x2A ∈ p.2.hal.events := by
  have h := claim_C10 (mkHal [0x40, 1, 2, 3, 4, 0]) 1
  refine ⟨h.1, h.2.1 11 (by norm_num), ?_⟩
  obtain ⟨p, hp⟩ :
      ∃ p, (Ads1263.new (mkHal [0x40, 1, 2, 3, 4, 0])).get_channel_value 1 2 =
        some p := ⟨_, rfl⟩
  have hm := h.2.2 2 (by norm_num) p.1 p.2 (by rw [hp])
  have he : (2 <<< 4) ||| 0x0A = 0x2A := by decide
  rw [he] at hm
  exact ⟨p, hp, hm⟩
